import Mathlib

/-!
Shallow embedding of the pizza-ordering single-page app (`src/App.jsx`).

The app keeps all session state in the `App` component: the loaded menu
(`pizzas`, `isPizzaLoading`, `pizzaError`), the cart (`cart`), and the
checkout lifecycle (`isSubmitting`, `submissionError`, `orderConfirmation`).
Cart mutation handlers (`handleAddToCart`, `handleUpdateQuantity`,
`handleRemoveItem`) are pure list transformations; the two asynchronous
calls (menu fetch, order submit) are modelled as explicit events that
resolve a pending request.  Currency amounts are represented in integer
cents: every price in the program is a multiple of $0.50, so the JS
floating-point sums and products computed by the app are exact and the
scaling by 100 preserves every equality the claims speak about.
Quantities are integers.
-/

/-- Catalog entry, as produced by `fetchPizzas` (`MOCK_PIZZAS`). -/
structure MenuItem where
  id : Nat
  name : String
  description : String
  price : Int
deriving DecidableEq, Repr

/-- One cart entry: `{ ...pizza, quantity }` in `App.jsx` (the spread copies
every `MenuItem` field and adds `quantity`). -/
structure CartLine where
  id : Nat
  name : String
  description : String
  price : Int
  quantity : Int
deriving DecidableEq, Repr

/-- `MOCK_PIZZAS` from `App.jsx`; the prices 12.50, 15.00, 14.50, 16.00
dollars are written in cents. -/
def MOCK_PIZZAS : List MenuItem :=
  [ { id := 1, name := "Margherita", description := "Classic tomato, mozzarella, and basil.", price := 1250 },
    { id := 2, name := "Pepperoni Feast", description := "Loaded with spicy pepperoni.", price := 1500 },
    { id := 3, name := "Veggie Supreme", description := "Mushrooms, onions, peppers, olives.", price := 1450 },
    { id := 4, name := "Hawaiian Delight", description := "Ham and pineapple.", price := 1600 } ]

/-- `cart.reduce((sum, item) => sum + (item.price * item.quantity), 0)`,
computed identically in `OrderSummary` (as `subtotal`) and in `OrderForm`
(as `total`). -/
def subtotal (cart : List CartLine) : Int :=
  cart.foldl (fun sum item => sum + item.price * item.quantity) 0

/-- `handleAddToCart`: if a line with the pizza's id exists, increment its
quantity via a map, else append `{ ...pizza, quantity: 1 }`. -/
def handleAddToCart (cart : List CartLine) (pizza : MenuItem) : List CartLine :=
  if cart.any (fun item => item.id == pizza.id) then
    cart.map (fun item =>
      if item.id == pizza.id then { item with quantity := item.quantity + 1 } else item)
  else
    cart ++ [{ id := pizza.id, name := pizza.name, description := pizza.description,
               price := pizza.price, quantity := 1 }]

/-- `handleRemoveItem`: `prevCart.filter(item => item.id !== pizzaId)`. -/
def handleRemoveItem (cart : List CartLine) (pizzaId : Nat) : List CartLine :=
  cart.filter (fun item => item.id != pizzaId)

/-- `handleUpdateQuantity`: delegate to `handleRemoveItem` when
`newQuantity <= 0`, otherwise map the new quantity onto the matching line. -/
def handleUpdateQuantity (cart : List CartLine) (pizzaId : Nat) (newQuantity : Int) :
    List CartLine :=
  if newQuantity ≤ 0 then
    handleRemoveItem cart pizzaId
  else
    cart.map (fun item =>
      if item.id == pizzaId then { item with quantity := newQuantity } else item)

/-- One `{ pizzaId, quantity }` entry of the order payload. -/
structure OrderItem where
  pizzaId : Nat
  quantity : Int
deriving DecidableEq, Repr

/-- The `orderPayload` built in `handleOrderSubmit`. -/
structure OrderPayload where
  customerName : String
  address : String
  items : List OrderItem
  total : Int
deriving DecidableEq, Repr

/-- The confirmation value stored by the success path of `handleOrderSubmit`. -/
structure OrderConfirmation where
  orderId : String
  timestamp : String
  total : Int
deriving DecidableEq, Repr

/-- An outgoing call to one of the two simulated services. -/
inductive Call where
  | fetchPizzas
  | submitOrder (payload : OrderPayload)
deriving DecidableEq, Repr

/-- The `App` component's state, plus `inflight`: the pending `submitOrder`
promise together with the `total` captured by `handleOrderSubmit`'s closure
(`none` when no submission is outstanding). -/
structure Sys where
  pizzas : List MenuItem
  cart : List CartLine
  isPizzaLoading : Bool
  pizzaError : Option String
  isSubmitting : Bool
  submissionError : Option String
  orderConfirmation : Option OrderConfirmation
  inflight : Option Int
deriving DecidableEq, Repr

/-- JS `String.prototype.trim()`, written on the character list: drop
whitespace from both ends. -/
def trimmed (s : String) : String :=
  ⟨((s.data.dropWhile Char.isWhitespace).reverse.dropWhile Char.isWhitespace).reverse⟩

/-- `canSubmit` in `OrderForm`:
`cart.length > 0 && name.trim() !== '' && address.trim() !== '' && !isSubmitting`. -/
def canSubmit (cart : List CartLine) (name address : String) (isSubmitting : Bool) : Bool :=
  cart.length > 0 && trimmed name != "" && trimmed address != "" && !isSubmitting

/-- JS `error.message || "Unknown Server Error"`: the fallback fires when the
message is absent or the empty string (both falsy). -/
def messageOrFallback (message : Option String) : String :=
  match message with
  | some m => if m == "" then "Unknown Server Error" else m
  | none => "Unknown Server Error"

/-- The guarded prefix of `handleOrderSubmit`: reject when the cart is empty
or a submission is in flight; otherwise clear error and confirmation, enter
the submitting state, remember the captured `total`, and issue the
`submitOrder` call with the normalized payload. -/
def handleOrderSubmit (s : Sys) (name address : String) (total : Int) : Sys × List Call :=
  if s.cart.length == 0 || s.isSubmitting then
    (s, [])
  else
    ({ s with isSubmitting := true, submissionError := none, orderConfirmation := none,
              inflight := some total },
     [Call.submitOrder
        { customerName := name, address := address,
          items := s.cart.map (fun item => { pizzaId := item.id, quantity := item.quantity }),
          total := total }])

/-- `OrderForm.handleSubmit`: compute `total` from the cart, and call
`onSubmit` (= `handleOrderSubmit`) only when `canSubmit` holds. -/
def handleSubmitForm (s : Sys) (name address : String) : Sys × List Call :=
  if canSubmit s.cart name address s.isSubmitting then
    handleOrderSubmit s name address (subtotal s.cart)
  else
    (s, [])

/-- Success continuation of `handleOrderSubmit` (try-block plus `finally`):
store the confirmation, clear the cart, leave the submitting state. -/
def handleSubmitSuccess (s : Sys) (orderId timestamp : String) (total : Int) : Sys :=
  { s with orderConfirmation := some { orderId := orderId, timestamp := timestamp, total := total },
           cart := [], isSubmitting := false, inflight := none }

/-- Failure continuation of `handleOrderSubmit` (catch-block plus `finally`). -/
def handleSubmitFailure (s : Sys) (message : Option String) : Sys :=
  { s with submissionError := some ("Order submission failed: " ++ messageOrFallback message),
           isSubmitting := false, inflight := none }

/-- The discrete events the app reacts to.  User events (`addToCart`,
`updateQuantity`, `removeItem`, `submit`, `reset`) correspond to the
handlers wired into the rendered markup; resolution events (`menuOk`,
`menuErr`, `submitOk`, `submitErr`) correspond to the pending promise of
the matching service call settling. -/
inductive Ev where
  | menuOk (items : List MenuItem)
  | menuErr (message : String)
  | addToCart (pizza : MenuItem)
  | updateQuantity (pizzaId : Nat) (newQuantity : Int)
  | removeItem (pizzaId : Nat)
  | submit (name address : String)
  | submitOk (orderId timestamp : String)
  | submitErr (message : Option String)
  | reset
deriving DecidableEq, Repr

/-- One run-to-completion reaction of the app to an event, returning the new
state and the service calls issued.  Guards reflect the render logic: when
`orderConfirmation` is set only the confirmation screen (and its reset
button) exists, pizza cards exist only once the menu loaded without error,
and a resolution event fires only while its request is outstanding. -/
def step (s : Sys) (ev : Ev) : Sys × List Call :=
  match ev with
  | .menuOk items =>
      if s.isPizzaLoading then
        ({ s with pizzas := items, isPizzaLoading := false }, [])
      else (s, [])
  | .menuErr _ =>
      if s.isPizzaLoading then
        ({ s with pizzaError := some "Failed to load pizza menu. Please try again later.",
                  isPizzaLoading := false }, [])
      else (s, [])
  | .addToCart pizza =>
      if s.orderConfirmation.isNone && !s.isPizzaLoading && s.pizzaError.isNone
          && s.pizzas.contains pizza then
        ({ s with cart := handleAddToCart s.cart pizza, submissionError := none }, [])
      else (s, [])
  | .updateQuantity pizzaId newQuantity =>
      if s.orderConfirmation.isNone then
        ({ s with cart := handleUpdateQuantity s.cart pizzaId newQuantity }, [])
      else (s, [])
  | .removeItem pizzaId =>
      if s.orderConfirmation.isNone then
        ({ s with cart := handleRemoveItem s.cart pizzaId }, [])
      else (s, [])
  | .submit name address =>
      if s.orderConfirmation.isNone then handleSubmitForm s name address else (s, [])
  | .submitOk orderId timestamp =>
      match s.inflight with
      | some total => (handleSubmitSuccess s orderId timestamp total, [])
      | none => (s, [])
  | .submitErr message =>
      match s.inflight with
      | some _ => (handleSubmitFailure s message, [])
      | none => (s, [])
  | .reset =>
      if s.orderConfirmation.isSome then ({ s with orderConfirmation := none }, [])
      else (s, [])

/-- The `useState` initial values of `App`. -/
def initState : Sys :=
  { pizzas := [], cart := [], isPizzaLoading := true, pizzaError := none,
    isSubmitting := false, submissionError := none, orderConfirmation := none,
    inflight := none }

/-- The mount-time `useEffect` (empty dependency array) issues the one
`fetchPizzas` call of the session. -/
def initCalls : List Call := [Call.fetchPizzas]

/-- Fold a list of events over the state. -/
def run : Sys → List Ev → Sys
  | s, [] => s
  | s, ev :: evs => run (step s ev).1 evs

/-- All service calls issued while reacting to a list of events. -/
def callsOf : Sys → List Ev → List Call
  | _, [] => []
  | s, ev :: evs => (step s ev).2 ++ callsOf (step s ev).1 evs

/-- MenuLoader status, read off the menu-related fields the way the render
logic does. -/
inductive MenuStatus where
  | loading
  | loaded (items : List MenuItem)
  | failed (reason : String)
deriving DecidableEq, Repr

/-- Status of the menu fetch in a given state. -/
def Sys.menuStatus (s : Sys) : MenuStatus :=
  if s.isPizzaLoading then .loading
  else
    match s.pizzaError with
    | some reason => .failed reason
    | none => .loaded s.pizzas

example : subtotal [{ id := 1, name := "Margherita", description := "d", price := 1000,
                      quantity := 2 },
                    { id := 2, name := "B", description := "d", price := 500, quantity := 1 }] = 2500 := by
  decide

example :
    handleAddToCart (handleAddToCart [] (MOCK_PIZZAS.get ⟨0, by decide⟩)) (MOCK_PIZZAS.get ⟨0, by decide⟩)
      = [{ id := 1, name := "Margherita", description := "Classic tomato, mozzarella, and basil.",
           price := 1250, quantity := 2 }] := by
  decide

example :
    (run initState
      [Ev.menuOk MOCK_PIZZAS,
       Ev.addToCart (MOCK_PIZZAS.get ⟨0, by decide⟩),
       Ev.submit "Alice" "1 Main St",
       Ev.submitOk "ORD-1" "2026-01-01"]).orderConfirmation
      = some { orderId := "ORD-1", timestamp := "2026-01-01", total := 1250 } := by
  decide

/-- Invariant tying the pieces of `Sys` together along every execution:
`isSubmitting` mirrors the outstanding `submitOrder` promise; while a
submission is in flight the error and confirmation are cleared and the menu
has loaded; a non-empty cart implies the menu resolved; and in the
confirmation screen the cart is empty, there is no error, and nothing is
pending. -/
def SysInv (s : Sys) : Prop :=
  (s.isSubmitting = s.inflight.isSome) ∧
  (s.isSubmitting = true →
    s.submissionError = none ∧ s.orderConfirmation = none ∧ s.isPizzaLoading = false) ∧
  (s.cart ≠ [] → s.isPizzaLoading = false) ∧
  (∀ c, s.orderConfirmation = some c →
    s.cart = [] ∧ s.submissionError = none ∧ s.isSubmitting = false ∧
    s.inflight = none ∧ s.isPizzaLoading = false)

theorem sysInv_init : SysInv initState := by
  simp [SysInv, initState]

theorem sysInv_step (s : Sys) (ev : Ev) (h : SysInv s) : SysInv (step s ev).1 := by
  obtain ⟨h1, h2, h3, h4⟩ := h
  cases ev with
  | menuOk items =>
      by_cases hl : s.isPizzaLoading
      · have hc : s.cart = [] := by
          by_contra hc
          exact absurd (h3 hc) (by simp [hl])
        have hs : s.isSubmitting = false := by
          by_contra hs
          have := (h2 (by simpa using hs)).2.2
          simp [hl] at this
        have hcn : s.orderConfirmation = none := by
          cases hcn : s.orderConfirmation with
          | none => rfl
          | some c =>
              have := (h4 c hcn).2.2.2.2
              simp [hl] at this
        simp [step, hl, SysInv, hs, hc, hcn, h1 ▸ hs]
      · simp only [step, hl, if_false, Bool.false_eq_true]
        exact ⟨h1, h2, h3, h4⟩
  | menuErr message =>
      by_cases hl : s.isPizzaLoading
      · have hs : s.isSubmitting = false := by
          by_contra hs
          have := (h2 (by simpa using hs)).2.2
          simp [hl] at this
        have hcn : s.orderConfirmation = none := by
          cases hcn : s.orderConfirmation with
          | none => rfl
          | some c =>
              have := (h4 c hcn).2.2.2.2
              simp [hl] at this
        simp [step, hl, SysInv, hs, hcn, h1 ▸ hs]
      · simp only [step, hl, if_false, Bool.false_eq_true]
        exact ⟨h1, h2, h3, h4⟩
  | addToCart pizza =>
      by_cases hg : (s.orderConfirmation.isNone && !s.isPizzaLoading && s.pizzaError.isNone
          && s.pizzas.contains pizza) = true
      · simp only [Bool.and_eq_true, Bool.not_eq_true', Option.isNone_iff_eq_none] at hg
        obtain ⟨⟨⟨hcn, hl⟩, hpe⟩, hmem⟩ := hg
        have hmem' : pizza ∈ s.pizzas := by simpa using hmem
        simp [step, SysInv, hcn, hl, hpe, hmem', h1]
      · simp only [step, hg, if_false, Bool.false_eq_true]
        exact ⟨h1, h2, h3, h4⟩
  | updateQuantity pizzaId newQuantity =>
      by_cases hg : s.orderConfirmation.isNone
      · have hcn : s.orderConfirmation = none := by simpa using hg
        refine ⟨by simp [step, hcn, h1], ?_, ?_, by simp [step, hcn]⟩
        · intro he
          simp only [step, hcn] at he ⊢
          simp only [Option.isNone_none, Bool.true_and, if_true] at he ⊢
          exact ⟨(h2 he).1, trivial, (h2 he).2.2⟩
        · intro hne
          simp only [step, hcn, Option.isNone_none, Bool.true_and, if_true] at hne ⊢
          apply h3
          intro hcc
          simp [handleUpdateQuantity, handleRemoveItem, hcc] at hne
      · simp only [step, hg, if_false, Bool.false_eq_true]
        exact ⟨h1, h2, h3, h4⟩
  | removeItem pizzaId =>
      by_cases hg : s.orderConfirmation.isNone
      · have hcn : s.orderConfirmation = none := by simpa using hg
        refine ⟨by simp [step, hcn, h1], ?_, ?_, by simp [step, hcn]⟩
        · intro he
          simp only [step, hcn] at he ⊢
          simp only [Option.isNone_none, Bool.true_and, if_true] at he ⊢
          exact ⟨(h2 he).1, trivial, (h2 he).2.2⟩
        · intro hne
          simp only [step, hcn, Option.isNone_none, Bool.true_and, if_true] at hne ⊢
          apply h3
          intro hcc
          simp [handleRemoveItem, hcc] at hne
      · simp only [step, hg, if_false, Bool.false_eq_true]
        exact ⟨h1, h2, h3, h4⟩
  | submit name address =>
      by_cases hg : s.orderConfirmation.isNone
      · by_cases hcs : canSubmit s.cart name address s.isSubmitting = true
        · have hs : s.isSubmitting = false := by
            simp only [canSubmit, Bool.and_eq_true, Bool.not_eq_true'] at hcs
            exact hcs.2
          have hne : s.cart ≠ [] := by
            simp only [canSubmit, Bool.and_eq_true] at hcs
            have := hcs.1.1.1
            intro hcc
            simp [hcc] at this
          have hl : s.isPizzaLoading = false := h3 hne
          have hlen : (s.cart.length == 0) = false := by
            simp [List.length_eq_zero, hne]
          have hcs2 : canSubmit s.cart name address false = true := by
            rw [← hs]; exact hcs
          simp [step, hg, handleSubmitForm, hcs, hcs2, handleOrderSubmit, hlen, hs, hl, hne,
            SysInv]
        · simp only [step, hg, if_true, handleSubmitForm, hcs, if_false, Bool.false_eq_true]
          exact ⟨h1, h2, h3, h4⟩
      · simp only [step, hg, if_false, Bool.false_eq_true]
        exact ⟨h1, h2, h3, h4⟩
  | submitOk orderId timestamp =>
      cases hin : s.inflight with
      | some total =>
          have hsub : s.isSubmitting = true := by simp [h1, hin]
          have hl : s.isPizzaLoading = false := (h2 hsub).2.2
          have herr : s.submissionError = none := (h2 hsub).1
          simp [step, hin, handleSubmitSuccess, SysInv, hl, herr]
      | none =>
          simp only [step, hin]
          exact ⟨h1, h2, h3, h4⟩
  | submitErr message =>
      cases hin : s.inflight with
      | some total =>
          have hsub : s.isSubmitting = true := by simp [h1, hin]
          have hconf : s.orderConfirmation = none := (h2 hsub).2.1
          have hl : s.isPizzaLoading = false := (h2 hsub).2.2
          simp [step, hin, handleSubmitFailure, SysInv, hconf, hl]
      | none =>
          simp only [step, hin]
          exact ⟨h1, h2, h3, h4⟩
  | reset =>
      by_cases hg : s.orderConfirmation.isSome
      · obtain ⟨c, hc⟩ := Option.isSome_iff_exists.1 hg
        obtain ⟨hcart, herr, hsub, hinf, hl⟩ := h4 c hc
        simp [step, hg, SysInv, hcart, herr, hsub, hinf, hl]
      · simp only [step, hg, if_false, Bool.false_eq_true]
        exact ⟨h1, h2, h3, h4⟩

theorem sysInv_run (s : Sys) (evs : List Ev) (h : SysInv s) : SysInv (run s evs) := by
  induction evs generalizing s with
  | nil => exact h
  | cons ev evs ih => exact ih _ (sysInv_step s ev h)

theorem sysInv_reachable (evs : List Ev) : SysInv (run initState evs) :=
  sysInv_run initState evs sysInv_init

/-- C1: Submit is rejected with no state change and no OrderService call
whenever the cart is empty, or the draft's customerName or deliveryAddress
is blank or whitespace-only after trimming, or a submission is already in
flight; in every other case it proceeds (entering the submitting state and
issuing the OrderService call). -/
theorem submit_guard (s : Sys) (name address : String)
    (hconf : s.orderConfirmation = none) :
    ((s.cart = [] ∨ trimmed name = "" ∨ trimmed address = "" ∨ s.isSubmitting = true) →
       step s (Ev.submit name address) = (s, [])) ∧
    (s.cart ≠ [] → trimmed name ≠ "" → trimmed address ≠ "" → s.isSubmitting = false →
       step s (Ev.submit name address) =
         ({ s with isSubmitting := true, submissionError := none, orderConfirmation := none,
                   inflight := some (subtotal s.cart) },
          [Call.submitOrder
             { customerName := name, address := address,
               items := s.cart.map (fun item => { pizzaId := item.id, quantity := item.quantity }),
               total := subtotal s.cart }])) := by
  constructor
  · intro hrej
    have hcs : canSubmit s.cart name address s.isSubmitting = false := by
      rcases hrej with h | h | h | h <;> simp [canSubmit, h, List.length_eq_zero]
    simp [step, hconf, handleSubmitForm, hcs]
  · intro hne hn ha hs
    have hcs : canSubmit s.cart name address s.isSubmitting = true := by
      simp [canSubmit, hn, ha, hs, List.length_pos_iff_ne_nil, hne]
    have hlen : (s.cart.length == 0) = false := by
      simp [List.length_eq_zero, hne]
    have hcs2 : canSubmit s.cart name address false = true := hs ▸ hcs
    simp [step, hconf, handleSubmitForm, hcs, hcs2, handleOrderSubmit, hlen, hs]

theorem submit_guard_witness :
    (initState.orderConfirmation = none ∧
     initState.cart = [] ∧
     step initState (Ev.submit "Alice" "1 Main St") = (initState, [])) := by
  refine ⟨by decide, by decide, ?_⟩
  exact (submit_guard initState "Alice" "1 Main St" (by decide)).1 (Or.inl (by decide))

/-- C6: every accepted Submit issues exactly one OrderService call, whose
payload carries the customer name, the address, the line list mirroring the
current cart in order as pizzaId-quantity pairs, and a total equal to the
subtotal of the current cart lines. -/
theorem submit_payload (s : Sys) (name address : String)
    (hconf : s.orderConfirmation = none) (hne : s.cart ≠ [])
    (hn : trimmed name ≠ "") (ha : trimmed address ≠ "")
    (hs : s.isSubmitting = false) :
    (step s (Ev.submit name address)).2 =
      [Call.submitOrder
         { customerName := name, address := address,
           items := s.cart.map (fun item => { pizzaId := item.id, quantity := item.quantity }),
           total := subtotal s.cart }] := by
  have hcs : canSubmit s.cart name address s.isSubmitting = true := by
    simp [canSubmit, hn, ha, hs, List.length_pos_iff_ne_nil, hne]
  have hlen : (s.cart.length == 0) = false := by
    simp [List.length_eq_zero, hne]
  have hcs2 : canSubmit s.cart name address false = true := hs ▸ hcs
  simp [step, hconf, handleSubmitForm, hcs, hcs2, handleOrderSubmit, hlen, hs]

theorem submit_payload_witness :
    (step (run initState [Ev.menuOk MOCK_PIZZAS, Ev.addToCart (MOCK_PIZZAS.get ⟨0, by decide⟩)])
        (Ev.submit "Alice" "1 Main St")).2 =
      [Call.submitOrder
         { customerName := "Alice", address := "1 Main St",
           items := [{ pizzaId := 1, quantity := 1 }], total := 1250 }] := by
  have h := submit_payload
    (run initState [Ev.menuOk MOCK_PIZZAS, Ev.addToCart (MOCK_PIZZAS.get ⟨0, by decide⟩)])
    "Alice" "1 Main St" (by decide) (by decide) (by decide) (by decide) (by decide)
  rw [h]
  decide

/-- Helper: a map whose function fixes every element of the list is the
identity on that list. -/
theorem map_fixed_eq_self {α : Type} (f : α → α) (xs : List α)
    (h : ∀ x ∈ xs, f x = x) : xs.map f = xs := by
  conv_rhs => rw [← List.map_id xs]
  exact List.map_congr_left h

/-- C4: AddItem increments the quantity of the unique existing line with the
item's id (leaving every other line untouched) and otherwise appends a new
line with quantity 1 at the end; it is a total function, and at the event
level it also clears any submission error. -/
theorem addToCart_spec (cart : List CartLine) (pizza : MenuItem) :
    ((∀ l ∈ cart, l.id ≠ pizza.id) →
       handleAddToCart cart pizza
         = cart ++ [{ id := pizza.id, name := pizza.name, description := pizza.description,
                      price := pizza.price, quantity := 1 }]) ∧
    (∀ pre l post, cart = pre ++ l :: post → l.id = pizza.id →
       (∀ x ∈ pre, x.id ≠ pizza.id) → (∀ x ∈ post, x.id ≠ pizza.id) →
       handleAddToCart cart pizza
         = pre ++ { l with quantity := l.quantity + 1 } :: post) ∧
    (∀ s : Sys, s.orderConfirmation = none → s.isPizzaLoading = false →
       s.pizzaError = none → pizza ∈ s.pizzas →
       (step s (Ev.addToCart pizza)).1.cart = handleAddToCart s.cart pizza ∧
       (step s (Ev.addToCart pizza)).1.submissionError = none) := by
  refine ⟨?_, ?_, ?_⟩
  · intro h
    have hany : (cart.any fun item => item.id == pizza.id) = false := by
      simp only [List.any_eq_false]
      intro x hx
      simpa using h x hx
    simp [handleAddToCart, hany]
  · intro pre l post hc hid hpre hpost
    subst hc
    have hany : ((pre ++ l :: post).any fun item => item.id == pizza.id) = true := by
      simp [List.any_append, List.any_cons, hid]
    simp only [handleAddToCart, hany, if_true, List.map_append, List.map_cons, hid, beq_self_eq_true]
    rw [map_fixed_eq_self _ pre (fun x hx => by simp [hpre x hx]),
        map_fixed_eq_self _ post (fun x hx => by simp [hpost x hx])]
  · intro s hconf hl hpe hmem
    constructor <;> simp [step, hconf, hl, hpe, hmem]

theorem addToCart_spec_witness :
    (handleAddToCart [] (MOCK_PIZZAS.get ⟨1, by decide⟩)
       = [{ id := 2, name := "Pepperoni Feast", description := "Loaded with spicy pepperoni.",
            price := 1500, quantity := 1 }]) ∧
    (handleAddToCart
        [{ id := 2, name := "Pepperoni Feast", description := "Loaded with spicy pepperoni.",
           price := 1500, quantity := 1 }] (MOCK_PIZZAS.get ⟨1, by decide⟩)
       = [{ id := 2, name := "Pepperoni Feast", description := "Loaded with spicy pepperoni.",
            price := 1500, quantity := 2 }]) := by
  constructor
  · exact (addToCart_spec [] (MOCK_PIZZAS.get ⟨1, by decide⟩)).1 (by decide)
  · exact (addToCart_spec _ (MOCK_PIZZAS.get ⟨1, by decide⟩)).2.1
      [] _ [] rfl (by decide) (by decide) (by decide)

/-- C5: SetQuantity with a non-positive quantity is exactly RemoveItem;
with a positive quantity it is a no-op when the id is absent, and when the
id is present (uniquely) it sets that line's quantity and changes nothing
else. -/
theorem setQuantity_spec (cart : List CartLine) (pizzaId : Nat) (n : Int) :
    (n ≤ 0 → handleUpdateQuantity cart pizzaId n = handleRemoveItem cart pizzaId) ∧
    (0 < n → (∀ x ∈ cart, x.id ≠ pizzaId) → handleUpdateQuantity cart pizzaId n = cart) ∧
    (0 < n → ∀ pre l post, cart = pre ++ l :: post → l.id = pizzaId →
       (∀ x ∈ pre, x.id ≠ pizzaId) → (∀ x ∈ post, x.id ≠ pizzaId) →
       handleUpdateQuantity cart pizzaId n = pre ++ { l with quantity := n } :: post) := by
  refine ⟨?_, ?_, ?_⟩
  · intro h
    simp [handleUpdateQuantity, h]
  · intro hn habs
    have hn' : ¬ n ≤ 0 := not_le.2 hn
    simp only [handleUpdateQuantity, hn', if_false]
    exact map_fixed_eq_self _ cart (fun x hx => by simp [habs x hx])
  · intro hn pre l post hc hid hpre hpost
    subst hc
    have hn' : ¬ n ≤ 0 := not_le.2 hn
    simp only [handleUpdateQuantity, hn', if_false, List.map_append, List.map_cons, hid,
      beq_self_eq_true, if_true]
    rw [map_fixed_eq_self _ pre (fun x hx => by simp [hpre x hx]),
        map_fixed_eq_self _ post (fun x hx => by simp [hpost x hx])]

theorem setQuantity_spec_witness :
    (handleUpdateQuantity
        [{ id := 2, name := "Pepperoni Feast", description := "Loaded with spicy pepperoni.",
           price := 1500, quantity := 3 }] 2 0
       = handleRemoveItem
           [{ id := 2, name := "Pepperoni Feast", description := "Loaded with spicy pepperoni.",
              price := 1500, quantity := 3 }] 2) ∧
    (handleUpdateQuantity
        [{ id := 2, name := "Pepperoni Feast", description := "Loaded with spicy pepperoni.",
           price := 1500, quantity := 3 }] 7 5
       = [{ id := 2, name := "Pepperoni Feast", description := "Loaded with spicy pepperoni.",
            price := 1500, quantity := 3 }]) ∧
    (handleUpdateQuantity
        [{ id := 2, name := "Pepperoni Feast", description := "Loaded with spicy pepperoni.",
           price := 1500, quantity := 3 }] 2 5
       = [{ id := 2, name := "Pepperoni Feast", description := "Loaded with spicy pepperoni.",
            price := 1500, quantity := 5 }]) := by
  refine ⟨?_, ?_, ?_⟩
  · exact (setQuantity_spec _ 2 0).1 (by decide)
  · exact (setQuantity_spec _ 7 5).2.1 (by decide) (by decide)
  · exact (setQuantity_spec _ 2 5).2.2 (by decide) [] _ [] rfl (by decide) (by decide) (by decide)

/-- Cart invariant of the spec: at most one line per item id and every
quantity at least 1. -/
def cartInv (cart : List CartLine) : Prop :=
  (cart.map CartLine.id).Nodup ∧ ∀ l ∈ cart, 1 ≤ l.quantity

/-- The three synchronous cart operations. -/
inductive CartOp where
  | add (pizza : MenuItem)
  | setQ (pizzaId : Nat) (newQuantity : Int)
  | remove (pizzaId : Nat)
deriving DecidableEq, Repr

/-- Dispatch one cart operation to its handler. -/
def applyCartOp (cart : List CartLine) : CartOp → List CartLine
  | .add pizza => handleAddToCart cart pizza
  | .setQ pizzaId n => handleUpdateQuantity cart pizzaId n
  | .remove pizzaId => handleRemoveItem cart pizzaId

/-- Fold a sequence of cart operations. -/
def applyCartOps (cart : List CartLine) (ops : List CartOp) : List CartLine :=
  ops.foldl applyCartOp cart

/-- Helper: mapping an id-preserving function over the cart leaves the id
sequence untouched. -/
theorem ids_after_map (cart : List CartLine) (f : CartLine → CartLine)
    (hf : ∀ x ∈ cart, (f x).id = x.id) :
    (cart.map f).map CartLine.id = cart.map CartLine.id := by
  rw [List.map_map]
  exact List.map_congr_left fun x hx => hf x hx

/-- Helper: removing an item deletes exactly its id from the id sequence. -/
theorem removeItem_ids (cart : List CartLine) (pizzaId : Nat) :
    (handleRemoveItem cart pizzaId).map CartLine.id
      = (cart.map CartLine.id).filter (fun i => i != pizzaId) := by
  induction cart with
  | nil => rfl
  | cons x xs ih =>
      simp only [handleRemoveItem, List.filter_cons, List.map_cons] at *
      by_cases hx : (x.id != pizzaId) = true
      · simp only [hx, if_true, List.map_cons, ih]
      · simp only [Bool.not_eq_true] at hx
        simp only [hx, Bool.false_eq_true, if_false, ih]

/-- Helper: one cart operation preserves the cart invariant. -/
theorem cartInv_applyCartOp (cart : List CartLine) (op : CartOp) (h : cartInv cart) :
    cartInv (applyCartOp cart op) := by
  obtain ⟨hnd, hq⟩ := h
  cases op with
  | add pizza =>
      simp only [applyCartOp, handleAddToCart]
      by_cases hany : (cart.any fun item => item.id == pizza.id) = true
      · simp only [hany, if_true]
        constructor
        · rw [ids_after_map cart _ (fun x _ => by split <;> rfl)]
          exact hnd
        · intro l hl
          obtain ⟨x, hx, rfl⟩ := List.mem_map.1 hl
          have hx1 := hq x hx
          split <;> simp <;> omega
      · simp only [hany, Bool.false_eq_true, if_false]
        constructor
        · rw [List.map_append]
          simp only [List.map_cons, List.map_nil]
          rw [List.nodup_append]
          refine ⟨hnd, List.nodup_singleton _, ?_⟩
          intro i hi hi1
          simp only [List.mem_singleton] at hi1
          subst hi1
          obtain ⟨x, hx, hxid⟩ := List.mem_map.1 hi
          have h2 : ∀ y ∈ cart, ¬ y.id = pizza.id := by simpa using hany
          exact h2 x hx hxid
        · intro l hl
          rcases List.mem_append.1 hl with hl | hl
          · exact hq l hl
          · simp only [List.mem_singleton] at hl
            subst hl
            simp
  | setQ pizzaId n =>
      simp only [applyCartOp, handleUpdateQuantity]
      by_cases hn : n ≤ 0
      · simp only [hn, if_true]
        constructor
        · rw [removeItem_ids]
          exact hnd.filter _
        · intro l hl
          exact hq l (List.mem_of_mem_filter hl)
      · simp only [hn, if_false]
        constructor
        · rw [ids_after_map cart _ (fun x _ => by split <;> rfl)]
          exact hnd
        · intro l hl
          obtain ⟨x, hx, rfl⟩ := List.mem_map.1 hl
          have hx1 := hq x hx
          split <;> simp <;> omega
  | remove pizzaId =>
      simp only [applyCartOp]
      constructor
      · rw [removeItem_ids]
        exact hnd.filter _
      · intro l hl
        exact hq l (List.mem_of_mem_filter hl)

/-- C7: starting from the empty cart, every sequence of AddItem, SetQuantity
and RemoveItem operations keeps the invariant (at most one line per item id,
every quantity an integer at least 1), and each single operation never
reorders the surviving lines: the id sequence is either unchanged, extended
by one fresh id at the end, or filtered by the removal of one id — so lines
always appear in first-add order. -/
theorem cart_ops_invariant (ops : List CartOp) :
    cartInv (applyCartOps [] ops) ∧
    (∀ cart op, cartInv cart →
      ((applyCartOp cart op).map CartLine.id = cart.map CartLine.id ∨
       (∃ x, x ∉ cart.map CartLine.id ∧
          (applyCartOp cart op).map CartLine.id = cart.map CartLine.id ++ [x]) ∨
       (∃ x, (applyCartOp cart op).map CartLine.id
          = (cart.map CartLine.id).filter (fun i => i != x)))) := by
  constructor
  · have hgen : ∀ (c : List CartLine), cartInv c → cartInv (applyCartOps c ops) := by
      induction ops with
      | nil => exact fun c hc => hc
      | cons op ops ih =>
          intro c hc
          exact ih _ (cartInv_applyCartOp c op hc)
    exact hgen [] (by constructor <;> simp)
  · intro cart op hc
    cases op with
    | add pizza =>
        by_cases hany : (cart.any fun item => item.id == pizza.id) = true
        · left
          simp only [applyCartOp, handleAddToCart, hany, if_true]
          exact ids_after_map cart _ (fun x _ => by split <;> rfl)
        · right; left
          refine ⟨pizza.id, ?_, ?_⟩
          · intro hmem
            obtain ⟨x, hx, hxid⟩ := List.mem_map.1 hmem
            have h2 : ∀ y ∈ cart, ¬ y.id = pizza.id := by simpa using hany
            exact h2 x hx hxid
          · simp only [applyCartOp, handleAddToCart, hany, Bool.false_eq_true, if_false,
              List.map_append, List.map_cons, List.map_nil]
    | setQ pizzaId n =>
        by_cases hn : n ≤ 0
        · right; right
          refine ⟨pizzaId, ?_⟩
          simp only [applyCartOp, handleUpdateQuantity, hn, if_true]
          exact removeItem_ids cart pizzaId
        · left
          simp only [applyCartOp, handleUpdateQuantity, hn, if_false]
          exact ids_after_map cart _ (fun x _ => by split <;> rfl)
    | remove pizzaId =>
        right; right
        exact ⟨pizzaId, removeItem_ids cart pizzaId⟩

theorem cart_ops_invariant_witness :
    cartInv (applyCartOps []
      [CartOp.add (MOCK_PIZZAS.get ⟨0, by decide⟩),
       CartOp.add (MOCK_PIZZAS.get ⟨0, by decide⟩),
       CartOp.add (MOCK_PIZZAS.get ⟨1, by decide⟩),
       CartOp.setQ 1 5, CartOp.remove 2]) ∧
    ((applyCartOp
        [{ id := 1, name := "Margherita", description := "Classic tomato, mozzarella, and basil.",
           price := 1250, quantity := 1 }] (CartOp.add (MOCK_PIZZAS.get ⟨1, by decide⟩))).map
        CartLine.id
       = [{ id := 1, name := "Margherita", description := "Classic tomato, mozzarella, and basil.",
            price := 1250, quantity := 1 }].map CartLine.id ∨
     (∃ x, x ∉ [{ id := 1, name := "Margherita",
                  description := "Classic tomato, mozzarella, and basil.",
                  price := 1250, quantity := 1 }].map CartLine.id ∧
        (applyCartOp
            [{ id := 1, name := "Margherita",
               description := "Classic tomato, mozzarella, and basil.",
               price := 1250, quantity := 1 }] (CartOp.add (MOCK_PIZZAS.get ⟨1, by decide⟩))).map
            CartLine.id
          = [{ id := 1, name := "Margherita",
               description := "Classic tomato, mozzarella, and basil.",
               price := 1250, quantity := 1 }].map CartLine.id ++ [x]) ∨
     (∃ x, (applyCartOp
            [{ id := 1, name := "Margherita",
               description := "Classic tomato, mozzarella, and basil.",
               price := 1250, quantity := 1 }] (CartOp.add (MOCK_PIZZAS.get ⟨1, by decide⟩))).map
            CartLine.id
          = ([{ id := 1, name := "Margherita",
                description := "Classic tomato, mozzarella, and basil.",
                price := 1250, quantity := 1 }].map CartLine.id).filter (fun i => i != x))) := by
  refine ⟨(cart_ops_invariant _).1, ?_⟩
  exact (cart_ops_invariant []).2 _ (CartOp.add (MOCK_PIZZAS.get ⟨1, by decide⟩))
    (by constructor <;> simp)

/-- C3: resolving an in-flight submission successfully stores a confirmation
holding the orderId and timestamp returned by OrderService together with the
total captured when Submit was accepted, empties the cart in the same
transition, and leaves submissionError empty. -/
theorem submit_success (evs : List Ev) (t : Int) (orderId timestamp : String)
    (h : (run initState evs).inflight = some t) :
    ((step (run initState evs) (Ev.submitOk orderId timestamp)).1.orderConfirmation
        = some { orderId := orderId, timestamp := timestamp, total := t }) ∧
    (step (run initState evs) (Ev.submitOk orderId timestamp)).1.cart = [] ∧
    (step (run initState evs) (Ev.submitOk orderId timestamp)).1.submissionError = none ∧
    (step (run initState evs) (Ev.submitOk orderId timestamp)).1.isSubmitting = false := by
  obtain ⟨h1, h2, h3, h4⟩ := sysInv_reachable evs
  have hsub : (run initState evs).isSubmitting = true := by simp [h1, h]
  have herr := (h2 hsub).1
  simp [step, h, handleSubmitSuccess, herr]

theorem submit_success_witness :
    ((step (run initState
          [Ev.menuOk MOCK_PIZZAS, Ev.addToCart (MOCK_PIZZAS.get ⟨0, by decide⟩),
           Ev.submit "Alice" "1 Main St"]) (Ev.submitOk "ORD-1" "2026-01-01")).1.orderConfirmation
        = some { orderId := "ORD-1", timestamp := "2026-01-01", total := 1250 }) ∧
    (step (run initState
          [Ev.menuOk MOCK_PIZZAS, Ev.addToCart (MOCK_PIZZAS.get ⟨0, by decide⟩),
           Ev.submit "Alice" "1 Main St"]) (Ev.submitOk "ORD-1" "2026-01-01")).1.cart = [] ∧
    (step (run initState
          [Ev.menuOk MOCK_PIZZAS, Ev.addToCart (MOCK_PIZZAS.get ⟨0, by decide⟩),
           Ev.submit "Alice" "1 Main St"]) (Ev.submitOk "ORD-1" "2026-01-01")).1.submissionError
        = none ∧
    (step (run initState
          [Ev.menuOk MOCK_PIZZAS, Ev.addToCart (MOCK_PIZZAS.get ⟨0, by decide⟩),
           Ev.submit "Alice" "1 Main St"]) (Ev.submitOk "ORD-1" "2026-01-01")).1.isSubmitting
        = false :=
  submit_success
    [Ev.menuOk MOCK_PIZZAS, Ev.addToCart (MOCK_PIZZAS.get ⟨0, by decide⟩),
     Ev.submit "Alice" "1 Main St"] 1250 "ORD-1" "2026-01-01" (by decide)

/-- C2 counterexample: the claim says the cart after a failed submission is
exactly the cart at the moment Submit was invoked, but cart mutations are
not blocked during the flight: submit with one Margherita in the cart, add a
Pepperoni Feast while the request is pending, and let the request fail — the
in-flight submission failed, yet the final cart (two lines) differs from the
cart at the moment Submit was invoked (one line). -/
theorem submit_failure_counterexample :
    ((run initState
        [Ev.menuOk MOCK_PIZZAS, Ev.addToCart (MOCK_PIZZAS.get ⟨0, by decide⟩),
         Ev.submit "Alice" "1 Main St"]).isSubmitting = true) ∧
    ((run initState
        [Ev.menuOk MOCK_PIZZAS, Ev.addToCart (MOCK_PIZZAS.get ⟨0, by decide⟩),
         Ev.submit "Alice" "1 Main St", Ev.addToCart (MOCK_PIZZAS.get ⟨1, by decide⟩),
         Ev.submitErr (some "Server rejected the order due to invalid data.")]).isSubmitting
      = false) ∧
    ((run initState
        [Ev.menuOk MOCK_PIZZAS, Ev.addToCart (MOCK_PIZZAS.get ⟨0, by decide⟩),
         Ev.submit "Alice" "1 Main St", Ev.addToCart (MOCK_PIZZAS.get ⟨1, by decide⟩),
         Ev.submitErr (some "Server rejected the order due to invalid data.")]).submissionError
      = some "Order submission failed: Server rejected the order due to invalid data.") ∧
    (run initState
        [Ev.menuOk MOCK_PIZZAS, Ev.addToCart (MOCK_PIZZAS.get ⟨0, by decide⟩),
         Ev.submit "Alice" "1 Main St", Ev.addToCart (MOCK_PIZZAS.get ⟨1, by decide⟩),
         Ev.submitErr (some "Server rejected the order due to invalid data.")]).cart
      ≠ (run initState
          [Ev.menuOk MOCK_PIZZAS, Ev.addToCart (MOCK_PIZZAS.get ⟨0, by decide⟩),
           Ev.submit "Alice" "1 Main St"]).cart := by
  decide

/-- C2 (amended): resolving an in-flight submission with a failure returns
to idle with a non-empty submissionError derived from the failure's reason
(generic fallback when the failure carries no reason or a blank one), leaves
the cart exactly as it was immediately before the failure resolved — in
particular it is never cleared, and equals the cart at Submit time whenever
no cart mutation happened during the flight — and the confirmation remains
unset. -/
theorem submit_failure (evs : List Ev) (t : Int) (message : Option String)
    (h : (run initState evs).inflight = some t) :
    ((step (run initState evs) (Ev.submitErr message)).1.isSubmitting = false) ∧
    ((step (run initState evs) (Ev.submitErr message)).1.submissionError
        = some ("Order submission failed: " ++ messageOrFallback message)) ∧
    ("Order submission failed: " ++ messageOrFallback message ≠ "") ∧
    ((step (run initState evs) (Ev.submitErr message)).1.cart = (run initState evs).cart) ∧
    ((step (run initState evs) (Ev.submitErr message)).1.orderConfirmation = none) := by
  obtain ⟨h1, h2, h3, h4⟩ := sysInv_reachable evs
  have hsub : (run initState evs).isSubmitting = true := by simp [h1, h]
  have hconf := (h2 hsub).2.1
  refine ⟨?_, ?_, ?_, ?_, ?_⟩ <;>
    simp [step, h, handleSubmitFailure, hconf, String.ext_iff]

theorem submit_failure_witness :
    ((step (run initState
          [Ev.menuOk MOCK_PIZZAS, Ev.addToCart (MOCK_PIZZAS.get ⟨0, by decide⟩),
           Ev.submit "Alice" "1 Main St"]) (Ev.submitErr none)).1.isSubmitting = false) ∧
    ((step (run initState
          [Ev.menuOk MOCK_PIZZAS, Ev.addToCart (MOCK_PIZZAS.get ⟨0, by decide⟩),
           Ev.submit "Alice" "1 Main St"]) (Ev.submitErr none)).1.submissionError
        = some ("Order submission failed: " ++ messageOrFallback none)) ∧
    ("Order submission failed: " ++ messageOrFallback none ≠ "") ∧
    ((step (run initState
          [Ev.menuOk MOCK_PIZZAS, Ev.addToCart (MOCK_PIZZAS.get ⟨0, by decide⟩),
           Ev.submit "Alice" "1 Main St"]) (Ev.submitErr none)).1.cart
        = (run initState
            [Ev.menuOk MOCK_PIZZAS, Ev.addToCart (MOCK_PIZZAS.get ⟨0, by decide⟩),
             Ev.submit "Alice" "1 Main St"]).cart) ∧
    ((step (run initState
          [Ev.menuOk MOCK_PIZZAS, Ev.addToCart (MOCK_PIZZAS.get ⟨0, by decide⟩),
           Ev.submit "Alice" "1 Main St"]) (Ev.submitErr none)).1.orderConfirmation = none) :=
  submit_failure
    [Ev.menuOk MOCK_PIZZAS, Ev.addToCart (MOCK_PIZZAS.get ⟨0, by decide⟩),
     Ev.submit "Alice" "1 Main St"] 1250 none (by decide)

/-- C8: in every reachable Confirmed state the only enabled transition is
the explicit start-new-order reset — every other event is a strict no-op —
and the reset only discards the confirmation, yielding an idle state whose
cart is empty and whose submissionError is empty; in particular the cart
that existed before the confirmed submission is not restored. -/
theorem confirmed_reset (evs : List Ev) (c : OrderConfirmation)
    (h : (run initState evs).orderConfirmation = some c) :
    (∀ ev, ev ≠ Ev.reset → step (run initState evs) ev = (run initState evs, [])) ∧
    (step (run initState evs) Ev.reset
       = ({ run initState evs with orderConfirmation := none }, [])) ∧
    (step (run initState evs) Ev.reset).1.cart = [] ∧
    (step (run initState evs) Ev.reset).1.submissionError = none ∧
    (step (run initState evs) Ev.reset).1.orderConfirmation = none := by
  obtain ⟨h1, h2, h3, h4⟩ := sysInv_reachable evs
  obtain ⟨hcart, herr, hsub, hinf, hl⟩ := h4 c h
  refine ⟨?_, ?_, ?_, ?_, ?_⟩
  · intro ev hev
    cases ev with
    | menuOk items => simp [step, hl]
    | menuErr message => simp [step, hl]
    | addToCart pizza => simp [step, h]
    | updateQuantity pizzaId newQuantity => simp [step, h]
    | removeItem pizzaId => simp [step, h]
    | submit name address => simp [step, h]
    | submitOk orderId timestamp => simp [step, hinf]
    | submitErr message => simp [step, hinf]
    | reset => exact absurd rfl hev
  · simp [step, h]
  · simp [step, h, hcart]
  · simp [step, h, herr]
  · simp [step, h]

theorem confirmed_reset_witness :
    ((run initState
        [Ev.menuOk MOCK_PIZZAS, Ev.addToCart (MOCK_PIZZAS.get ⟨0, by decide⟩),
         Ev.submit "Alice" "1 Main St", Ev.submitOk "ORD-1" "2026-01-01"]).orderConfirmation
      = some { orderId := "ORD-1", timestamp := "2026-01-01", total := 1250 }) ∧
    (step (run initState
        [Ev.menuOk MOCK_PIZZAS, Ev.addToCart (MOCK_PIZZAS.get ⟨0, by decide⟩),
         Ev.submit "Alice" "1 Main St", Ev.submitOk "ORD-1" "2026-01-01"])
        (Ev.addToCart (MOCK_PIZZAS.get ⟨1, by decide⟩))
      = (run initState
          [Ev.menuOk MOCK_PIZZAS, Ev.addToCart (MOCK_PIZZAS.get ⟨0, by decide⟩),
           Ev.submit "Alice" "1 Main St", Ev.submitOk "ORD-1" "2026-01-01"], [])) ∧
    (step (run initState
        [Ev.menuOk MOCK_PIZZAS, Ev.addToCart (MOCK_PIZZAS.get ⟨0, by decide⟩),
         Ev.submit "Alice" "1 Main St", Ev.submitOk "ORD-1" "2026-01-01"]) Ev.reset).1.cart
      = [] ∧
    (step (run initState
        [Ev.menuOk MOCK_PIZZAS, Ev.addToCart (MOCK_PIZZAS.get ⟨0, by decide⟩),
         Ev.submit "Alice" "1 Main St", Ev.submitOk "ORD-1" "2026-01-01"])
        Ev.reset).1.submissionError = none ∧
    (step (run initState
        [Ev.menuOk MOCK_PIZZAS, Ev.addToCart (MOCK_PIZZAS.get ⟨0, by decide⟩),
         Ev.submit "Alice" "1 Main St", Ev.submitOk "ORD-1" "2026-01-01"])
        Ev.reset).1.orderConfirmation = none := by
  have h := confirmed_reset
    [Ev.menuOk MOCK_PIZZAS, Ev.addToCart (MOCK_PIZZAS.get ⟨0, by decide⟩),
     Ev.submit "Alice" "1 Main St", Ev.submitOk "ORD-1" "2026-01-01"]
    { orderId := "ORD-1", timestamp := "2026-01-01", total := 1250 } (by decide)
  exact ⟨by decide, h.1 _ (by decide), h.2.2.1, h.2.2.2.1, h.2.2.2.2⟩

/-- Helper: no reaction to any event ever issues a `fetchPizzas` call. -/
theorem step_no_fetch (s : Sys) (ev : Ev) : Call.fetchPizzas ∉ (step s ev).2 := by
  cases ev with
  | submit name address =>
      simp only [step]
      split
      · simp only [handleSubmitForm]
        split
        · simp only [handleOrderSubmit]
          split <;> simp
        · simp
      · simp
  | menuOk items => simp only [step]; split <;> simp
  | menuErr message => simp only [step]; split <;> simp
  | addToCart pizza => simp only [step]; split <;> simp
  | updateQuantity pizzaId newQuantity => simp only [step]; split <;> simp
  | removeItem pizzaId => simp only [step]; split <;> simp
  | submitOk orderId timestamp =>
      simp only [step]
      cases s.inflight <;> simp
  | submitErr message =>
      simp only [step]
      cases s.inflight <;> simp
  | reset => simp only [step]; split <;> simp

/-- Helper: no event sequence ever issues a `fetchPizzas` call. -/
theorem callsOf_no_fetch (s : Sys) (evs : List Ev) : Call.fetchPizzas ∉ callsOf s evs := by
  induction evs generalizing s with
  | nil => simp [callsOf]
  | cons ev evs ih =>
      simp only [callsOf, List.mem_append, not_or]
      exact ⟨step_no_fetch s ev, ih _⟩

/-- Helper: once the menu fetch has resolved, one reaction changes neither
the menu status nor the resolved flag. -/
theorem menuStatus_stable_step (s : Sys) (ev : Ev) (h : s.isPizzaLoading = false) :
    (step s ev).1.menuStatus = s.menuStatus ∧ (step s ev).1.isPizzaLoading = false := by
  cases ev with
  | menuOk items => simp [step, h]
  | menuErr message => simp [step, h]
  | addToCart pizza => simp only [step]; split <;> simp [Sys.menuStatus, h]
  | updateQuantity pizzaId newQuantity => simp only [step]; split <;> simp [Sys.menuStatus, h]
  | removeItem pizzaId => simp only [step]; split <;> simp [Sys.menuStatus, h]
  | submit name address =>
      simp only [step]
      split
      · simp only [handleSubmitForm]
        split
        · simp only [handleOrderSubmit]
          split <;> simp [Sys.menuStatus, h]
        · simp [Sys.menuStatus, h]
      · simp [Sys.menuStatus, h]
  | submitOk orderId timestamp =>
      simp only [step]
      cases s.inflight <;> simp [Sys.menuStatus, handleSubmitSuccess, h]
  | submitErr message =>
      simp only [step]
      cases s.inflight <;> simp [Sys.menuStatus, handleSubmitFailure, h]
  | reset => simp only [step]; split <;> simp [Sys.menuStatus, h]

/-- C9: a session issues exactly one `fetchPizzas` call to CatalogService —
the one triggered at startup, when the menu status is already Loading — and
whatever events follow, no reaction ever issues another; moreover once the
menu is resolved (Loaded or Failed, i.e. no longer loading) its status never
changes again. -/
theorem menu_single_fetch (evs : List Ev) (s : Sys) (evs2 : List Ev) :
    (initCalls ++ callsOf initState evs).count Call.fetchPizzas = 1 ∧
    initState.menuStatus = MenuStatus.loading ∧
    (s.isPizzaLoading = false → (run s evs2).menuStatus = s.menuStatus) := by
  refine ⟨?_, by decide, ?_⟩
  · rw [List.count_append, List.count_eq_zero.2 (callsOf_no_fetch initState evs)]
    decide
  · intro h
    induction evs2 generalizing s with
    | nil => rfl
    | cons ev evs2 ih =>
        have hstep := menuStatus_stable_step s ev h
        calc (run (step s ev).1 evs2).menuStatus
            = (step s ev).1.menuStatus := ih _ hstep.2
          _ = s.menuStatus := hstep.1

theorem menu_single_fetch_witness :
    (initCalls ++ callsOf initState [Ev.menuOk MOCK_PIZZAS]).count Call.fetchPizzas = 1 ∧
    initState.menuStatus = MenuStatus.loading ∧
    ((run initState [Ev.menuOk MOCK_PIZZAS]).isPizzaLoading = false ∧
     (run (run initState [Ev.menuOk MOCK_PIZZAS]) [Ev.menuErr "late failure"]).menuStatus
       = (run initState [Ev.menuOk MOCK_PIZZAS]).menuStatus) := by
  have h := menu_single_fetch [Ev.menuOk MOCK_PIZZAS]
    (run initState [Ev.menuOk MOCK_PIZZAS]) [Ev.menuErr "late failure"]
  exact ⟨h.1, h.2.1, by decide, h.2.2 (by decide)⟩

/-- C10: cart mutations stay enabled while a submission is in flight — their
reactions apply the ordinary handlers regardless of `isSubmitting` — and
when the in-flight submission then succeeds the success handler replaces the
whole cart with the empty cart, discarding lines added or changed during the
flight along with the submitted ones. -/
theorem inflight_mutations (s : Sys) (pizza : MenuItem) (pizzaId : Nat) (n : Int) (t : Int)
    (orderId timestamp : String)
    (hsub : s.isSubmitting = true)
    (hconf : s.orderConfirmation = none) (hl : s.isPizzaLoading = false)
    (hpe : s.pizzaError = none) (hmem : pizza ∈ s.pizzas) :
    ((step s (Ev.addToCart pizza)).1.cart = handleAddToCart s.cart pizza) ∧
    ((step s (Ev.updateQuantity pizzaId n)).1.cart = handleUpdateQuantity s.cart pizzaId n) ∧
    ((step s (Ev.removeItem pizzaId)).1.cart = handleRemoveItem s.cart pizzaId) ∧
    (s.inflight = some t → (step s (Ev.submitOk orderId timestamp)).1.cart = []) := by
  refine ⟨?_, ?_, ?_, ?_⟩
  · simp [step, hconf, hl, hpe, hmem]
  · simp [step, hconf]
  · simp [step, hconf]
  · intro hin
    simp [step, hin, handleSubmitSuccess]

theorem inflight_mutations_witness :
    ((step (run initState
        [Ev.menuOk MOCK_PIZZAS, Ev.addToCart (MOCK_PIZZAS.get ⟨0, by decide⟩),
         Ev.submit "Alice" "1 Main St"]) (Ev.addToCart (MOCK_PIZZAS.get ⟨1, by decide⟩))).1.cart
      = handleAddToCart (run initState
          [Ev.menuOk MOCK_PIZZAS, Ev.addToCart (MOCK_PIZZAS.get ⟨0, by decide⟩),
           Ev.submit "Alice" "1 Main St"]).cart (MOCK_PIZZAS.get ⟨1, by decide⟩)) ∧
    ((step (run initState
        [Ev.menuOk MOCK_PIZZAS, Ev.addToCart (MOCK_PIZZAS.get ⟨0, by decide⟩),
         Ev.submit "Alice" "1 Main St", Ev.addToCart (MOCK_PIZZAS.get ⟨1, by decide⟩)])
        (Ev.submitOk "ORD-1" "2026-01-01")).1.cart = []) := by
  have h1 := inflight_mutations (run initState
      [Ev.menuOk MOCK_PIZZAS, Ev.addToCart (MOCK_PIZZAS.get ⟨0, by decide⟩),
       Ev.submit "Alice" "1 Main St"]) (MOCK_PIZZAS.get ⟨1, by decide⟩) 1 1 1250
      "ORD-1" "2026-01-01" (by decide) (by decide) (by decide) (by decide) (by decide)
  have h2 := inflight_mutations (run initState
      [Ev.menuOk MOCK_PIZZAS, Ev.addToCart (MOCK_PIZZAS.get ⟨0, by decide⟩),
       Ev.submit "Alice" "1 Main St", Ev.addToCart (MOCK_PIZZAS.get ⟨1, by decide⟩)])
      (MOCK_PIZZAS.get ⟨1, by decide⟩) 1 1 1250
      "ORD-1" "2026-01-01" (by decide) (by decide) (by decide) (by decide) (by decide)
  exact ⟨h1.1, h2.2.2.2 (by decide)⟩
